import Mathlib

/-
Verification of the trust/resource-admission layer of the artifact registry
API, against its natural-language specification.

Shallow embedding conventions:
- JavaScript numbers holding timestamps and counters are modelled as Int
  (no arithmetic here ever approaches 2^53, and only order, addition and
  subtraction are used).
- JavaScript strings are modelled as Lean String; every string operation the
  source uses (trim, length, lexicographic comparison) is implemented over
  the underlying character list so that all definitions evaluate.
- Host primitives supplied by external libraries (the RegExp constructor,
  the safe-regex package, the PostgreSQL regex operator) are oracles passed
  as Bool-valued function parameters.
- Fallible operations return Except or an outcome inductive mirroring the
  distinct throw sites of the source.
-/

set_option maxRecDepth 8000

/-! String helpers: executable models of the JavaScript string primitives
    used by the sources (trim, lexicographic order). -/

/-- Character comparison by code point, as JavaScript compares strings. -/
def charLtB (c d : Char) : Bool := c.toNat < d.toNat

/-- Lexicographic order on character lists, modelling JavaScript / SQL
    string comparison. -/
def strLtL : List Char → List Char → Bool
  | [], [] => false
  | [], _ :: _ => true
  | _ :: _, [] => false
  | c :: cs, d :: ds =>
    if charLtB c d then true
    else if charLtB d c then false
    else strLtL cs ds

/-- Strict lexicographic order on strings. -/
def strLtB (a b : String) : Bool := strLtL a.data b.data

/-- Whitespace predicate of the JavaScript trim primitive (restricted to the
    ASCII whitespace characters, which are the only ones occurring here). -/
def isWsB (c : Char) : Bool :=
  c == ' ' || c == '\t' || c == '\n' || c == '\r'

/-- Length of the trimmed string: executable model of the JavaScript
    expression s.trim().length. -/
def jsTrimLen (s : String) : Nat :=
  ((s.data.dropWhile isWsB).reverse.dropWhile isWsB).length

/-! TokenStore: embedding of verifyAndConsume from src/unnamed/part_017.
    The store maps a token string to a record with a remaining-use counter
    and an expiry timestamp.  All claims below concern a single token, so
    the state is the store entry for that token (none when the token is
    absent, i.e. never issued or already deleted). -/

/-- Store entry for one token in src/unnamed/part_017: remaining uses and
    expiry timestamp in milliseconds. -/
structure TokenEntry where
  remaining : Int
  expiresAt : Int
  deriving DecidableEq

/-- Failure modes of verifyAndConsume in src/unnamed/part_017: the three
    throw sites (unknown token, TokenExpiredError, TokenUsageExceeded).
    The spec calls the last two TokenExpired and TokenExhausted. -/
inductive VerifyError
  | unknownToken
  | tokenExpired
  | tokenExhausted
  deriving DecidableEq

/-- Embedding of verifyAndConsume (src/unnamed/part_017, lines 20-51),
    restricted to the store entry of the token being presented.  The JWT
    signature check performed first by the external jsonwebtoken library is
    assumed to pass (a token with a bad signature never reaches the store).
    Returns the result of the call (the remaining count after consumption on
    success, the thrown error otherwise) together with the store entry after
    the call. -/
def verifyAndConsume (now : Int) (st : Option TokenEntry) :
    Except VerifyError Int × Option TokenEntry :=
  match st with
  | none => (Except.error VerifyError.unknownToken, none)
  | some e =>
    if now > e.expiresAt then
      (Except.error VerifyError.tokenExpired, none)
    else if e.remaining ≤ 0 then
      (Except.error VerifyError.tokenExhausted, none)
    else
      (Except.ok (e.remaining - 1),
       some { remaining := e.remaining - 1, expiresAt := e.expiresAt })

instance {ε α : Type} [DecidableEq ε] [DecidableEq α] :
    DecidableEq (Except ε α) := fun a b =>
  match a, b with
  | Except.ok x, Except.ok y =>
    if h : x = y then isTrue (by rw [h])
    else isFalse (by intro hc; injection hc; contradiction)
  | Except.error x, Except.error y =>
    if h : x = y then isTrue (by rw [h])
    else isFalse (by intro hc; injection hc; contradiction)
  | Except.ok _, Except.error _ => isFalse (fun hc => Except.noConfusion hc)
  | Except.error _, Except.ok _ => isFalse (fun hc => Except.noConfusion hc)

/-- Result component of a verifyAndConsume call. -/
def callResult (now : Int) (st : Option TokenEntry) : Except VerifyError Int :=
  (verifyAndConsume now st).1

/-- State component of a verifyAndConsume call. -/
def stepState (now : Int) (st : Option TokenEntry) : Option TokenEntry :=
  (verifyAndConsume now st).2

/-- Store entry after k successive verifyAndConsume calls at time now. -/
def stateAfter (now : Int) (st : Option TokenEntry) : Nat → Option TokenEntry
  | 0 => st
  | k + 1 => stepState now (stateAfter now st k)

/-- Entry created by issueToken (src/unnamed/part_017, lines 13-18) for a
    budget of n uses: remaining is set to the maximum request count and
    expiresAt to issuance time plus the lifetime. -/
def issuedEntry (n : Nat) (expiry : Int) : TokenEntry :=
  { remaining := (n : Int), expiresAt := expiry }

/-! Embedding of AuthService.validateToken
    (src/phase2/src/services/auth.service.ts, lines 44-75).  The database
    row for one token is modelled directly; validateToken reads it, deletes
    it when expired by time or usage, and otherwise returns the username. -/

/-- Database row of auth_tokens for one token. -/
structure DbToken where
  usageCount : Int
  maxUsage : Int
  expiresAt : Int
  deriving DecidableEq

/-- Outcome of AuthService.validateToken, separating the three null-return
    branches of the source (unknown row, expired by time, expired by usage)
    from the successful return of the username. -/
inductive ValidateOutcome
  | invalid
  | expiredTime
  | expiredUsage
  | valid
  deriving DecidableEq

/-- Embedding of AuthService.validateToken: the row lookup, the time check
    (expires_at < now), the usage check (usage_count >= max_usage), and the
    deleteToken calls in the two expiry branches. -/
def validateToken (now : Int) (st : Option DbToken) :
    ValidateOutcome × Option DbToken :=
  match st with
  | none => (ValidateOutcome.invalid, none)
  | some t =>
    if t.expiresAt < now then (ValidateOutcome.expiredTime, none)
    else if t.usageCount ≥ t.maxUsage then (ValidateOutcome.expiredUsage, none)
    else (ValidateOutcome.valid, some t)

/-- Embedding of AuthService.incrementTokenUsage
    (src/phase2/src/services/auth.service.ts, lines 81-89). -/
def incrementTokenUsage (t : DbToken) : DbToken :=
  { t with usageCount := t.usageCount + 1 }

/-! Supporting lemmas for the token claims. -/

theorem stateAfter_add (now : Int) (st : Option TokenEntry) (a b : Nat) :
    stateAfter now st (a + b) = stateAfter now (stateAfter now st a) b := by
  induction b with
  | zero => rfl
  | succ b ih => simp [stateAfter, Nat.add_succ, ih]

theorem stateAfter_none (now : Int) (k : Nat) :
    stateAfter now none k = none := by
  induction k with
  | zero => rfl
  | succ k ih => simp [stateAfter, ih, stepState, verifyAndConsume]

theorem stateAfter_issued (n : Nat) (now expiry : Int) (h : now ≤ expiry) :
    ∀ k : Nat, k ≤ n →
      stateAfter now (some (issuedEntry n expiry)) k
        = some { remaining := (n : Int) - k, expiresAt := expiry } := by
  intro k
  induction k with
  | zero => intro _; simp [stateAfter, issuedEntry]
  | succ k ih =>
    intro hk
    have hk' : k ≤ n := Nat.le_of_succ_le hk
    have hkn : k < n := Nat.lt_of_succ_le hk
    have hrem : ¬ ((n : Int) - k ≤ 0) := by
      have : (k : Int) < (n : Int) := by exact_mod_cast hkn
      omega
    have hexp : ¬ (now > expiry) := not_lt.mpr h
    have harith : (n : Int) - ((k : Nat) + 1 : Nat) = (n : Int) - k - 1 := by
      push_cast
      omega
    simp only [stateAfter, ih hk', stepState, verifyAndConsume, if_neg hexp,
      if_neg hrem, harith]

/-- C1: for a token issued with a budget of n uses and not yet expired by
    time, a sequence of verifyAndConsume calls succeeds on each of the first
    n calls (returning the decremented remaining count), the call after the
    n-th fails with TokenExhausted, and every later call fails as well (the
    record was deleted, so the token is unknown).  The token therefore
    validates exactly n times. -/
theorem token_budget_exactly_n (n : Nat) (now expiry : Int) (h : now ≤ expiry) :
    (∀ k : Nat, k < n →
      callResult now (stateAfter now (some (issuedEntry n expiry)) k)
        = Except.ok ((n : Int) - k - 1))
    ∧ callResult now (stateAfter now (some (issuedEntry n expiry)) n)
        = Except.error VerifyError.tokenExhausted
    ∧ (∀ k : Nat, n < k →
      callResult now (stateAfter now (some (issuedEntry n expiry)) k)
        = Except.error VerifyError.unknownToken) := by
  have hexp : ¬ (now > expiry) := not_lt.mpr h
  refine ⟨?_, ?_, ?_⟩
  · intro k hk
    rw [stateAfter_issued n now expiry h k (Nat.le_of_lt hk)]
    have hrem : ¬ ((n : Int) - k ≤ 0) := by
      have : (k : Int) < (n : Int) := by exact_mod_cast hk
      omega
    simp [callResult, verifyAndConsume, hexp, hrem]
  · rw [stateAfter_issued n now expiry h n le_rfl]
    simp [callResult, verifyAndConsume, hexp]
  · intro k hk
    obtain ⟨j, rfl⟩ : ∃ j, k = (n + 1) + j := by
      refine ⟨k - (n + 1), ?_⟩
      omega
    rw [stateAfter_add]
    have hstep : stateAfter now (some (issuedEntry n expiry)) (n + 1) = none := by
      have : stateAfter now (some (issuedEntry n expiry)) (n + 1)
          = stepState now (stateAfter now (some (issuedEntry n expiry)) n) := rfl
      rw [this, stateAfter_issued n now expiry h n le_rfl]
      simp [stepState, verifyAndConsume, hexp]
    rw [hstep, stateAfter_none]
    rfl

/-- C1 witness: a token issued with a budget of 2 uses at a time before its
    expiry succeeds on calls 1 and 2 and fails with TokenExhausted on
    call 3. -/
theorem token_budget_exactly_n_witness :
    callResult 0 (stateAfter 0 (some (issuedEntry 2 10)) 1) = Except.ok 0
    ∧ callResult 0 (stateAfter 0 (some (issuedEntry 2 10)) 2)
        = Except.error VerifyError.tokenExhausted := by
  have h := token_budget_exactly_n 2 0 10 (by decide)
  exact ⟨by simpa using h.1 1 (by decide), h.2.1⟩

/-- C2 counterexample: for a token with a budget of 2 uses, the second
    successful verifyAndConsume call reports a remaining count of 0 but does
    NOT delete the record: the store entry after the second call is still
    present (with remaining 0).  The claim that the observing call deletes
    the record in the same step is therefore false on the code: deletion
    happens only on the next, failing call. -/
theorem token_delete_same_step_cex :
    callResult 0 (stateAfter 0 (some (issuedEntry 2 10)) 1) = Except.ok 0
    ∧ stateAfter 0 (some (issuedEntry 2 10)) 2
        = some { remaining := 0, expiresAt := 10 }
    ∧ stateAfter 0 (some (issuedEntry 2 10)) 2 ≠ none := by
  refine ⟨by decide, by decide, by decide⟩

/-- C2 amended: the deleting step is the failing call, not the last
    successful one.  A verifyAndConsume call that observes an exhausted
    budget (remaining at or below 0) or an elapsed expiry both reports that
    failure and deletes the record in the same step, while a successful call
    (even the one whose returned remaining count is 0) decrements the
    counter and leaves the record in place.  In particular, for a budget of
    2: call 1 returns remaining 1, call 2 returns remaining 0 with the
    record still present, and call 3 fails with TokenExhausted and deletes
    the record. -/
theorem token_delete_on_failing_call (e : TokenEntry) (now : Int) :
    (now > e.expiresAt →
      verifyAndConsume now (some e) = (Except.error VerifyError.tokenExpired, none))
    ∧ (now ≤ e.expiresAt → e.remaining ≤ 0 →
      verifyAndConsume now (some e) = (Except.error VerifyError.tokenExhausted, none))
    ∧ (now ≤ e.expiresAt → 0 < e.remaining →
      verifyAndConsume now (some e) =
        (Except.ok (e.remaining - 1),
         some { remaining := e.remaining - 1, expiresAt := e.expiresAt })) := by
  refine ⟨?_, ?_, ?_⟩
  · intro hgt
    simp [verifyAndConsume, hgt]
  · intro hle hrem
    have hexp : ¬ (now > e.expiresAt) := not_lt.mpr hle
    simp [verifyAndConsume, hexp, hrem]
  · intro hle hrem
    have hexp : ¬ (now > e.expiresAt) := not_lt.mpr hle
    have hr : ¬ (e.remaining ≤ 0) := not_le.mpr hrem
    simp [verifyAndConsume, hexp, hr]

/-- C2 witness: the failing third call on an exhausted entry (remaining 0,
    unexpired) reports TokenExhausted and deletes the record in that same
    step. -/
theorem token_delete_on_failing_call_witness :
    verifyAndConsume 0 (some { remaining := 0, expiresAt := 10 })
      = (Except.error VerifyError.tokenExhausted, none) :=
  (token_delete_on_failing_call { remaining := 0, expiresAt := 10 } 0).2.1
    (by decide) (by decide)

/-- C3 counterexample: at the instant now = expiresAt the code still accepts
    the token.  In src/unnamed/part_017 the expiry check is strict
    (now > expiresAt) and in auth.service.ts it is expires_at < now, so a
    token with remaining uses validates successfully at now = expiresAt,
    contradicting the claim that validation fails with TokenExpired whenever
    now is at or past expiresAt (and hence the claimed iff with
    now < expiresAt). -/
theorem token_expiry_boundary_cex :
    callResult 100 (some { remaining := 5, expiresAt := 100 }) = Except.ok 4
    ∧ (validateToken 100 (some { usageCount := 0, maxUsage := 1000, expiresAt := 100 })).1
        = ValidateOutcome.valid
    ∧ ¬ ((100 : Int) < 100) := by
  refine ⟨by decide, by decide, by decide⟩

/-- C3 amended: a token is accepted if and only if it has remaining uses AND
    now ≤ expiresAt (the boundary instant now = expiresAt still validates);
    once now > expiresAt the call fails with TokenExpired regardless of the
    remaining uses.  Both the in-memory store (verifyAndConsume) and the
    database-backed service (validateToken) agree on this. -/
theorem token_valid_iff (e : TokenEntry) (t : DbToken) (now : Int) :
    ((callResult now (some e)).isOk = true ↔ (0 < e.remaining ∧ now ≤ e.expiresAt))
    ∧ (e.expiresAt < now →
        callResult now (some e) = Except.error VerifyError.tokenExpired)
    ∧ ((validateToken now (some t)).1 = ValidateOutcome.valid ↔
        (t.usageCount < t.maxUsage ∧ now ≤ t.expiresAt))
    ∧ (t.expiresAt < now →
        (validateToken now (some t)).1 = ValidateOutcome.expiredTime) := by
  refine ⟨?_, ?_, ?_, ?_⟩
  · simp only [callResult, verifyAndConsume]
    split_ifs with h1 h2
    · simp [Except.isOk, Except.toBool]
      omega
    · simp [Except.isOk, Except.toBool]
      omega
    · simp [Except.isOk, Except.toBool]
      omega
  · intro h
    simp [callResult, verifyAndConsume, h]
  · simp only [validateToken]
    split_ifs with h1 h2
    · simp
      omega
    · simp
      omega
    · simp
      omega
  · intro h
    simp [validateToken, h]

/-- C3 witness: one millisecond past expiry, a token with remaining uses is
    rejected as TokenExpired on both implementations. -/
theorem token_valid_iff_witness :
    callResult 101 (some { remaining := 5, expiresAt := 100 })
      = Except.error VerifyError.tokenExpired
    ∧ (validateToken 101 (some { usageCount := 0, maxUsage := 1000, expiresAt := 100 })).1
        = ValidateOutcome.expiredTime := by
  have h := token_valid_iff { remaining := 5, expiresAt := 100 }
    { usageCount := 0, maxUsage := 1000, expiresAt := 100 } 101
  exact ⟨h.2.1 (by decide), h.2.2.2 (by decide)⟩

/-! RegexSafetyAnalyzer: embedding of validateRegexPattern from
    src/phase2/src/utils/regex.utils.ts (lines 11-49).  The five checks run
    in source order and the first failing one raises.  The host RegExp
    constructor (check 3) and the safe-regex package (check 4) are external
    dependencies, passed as Bool oracles; the fifth, structural check is a
    regex literal in the source and is implemented concretely below. -/

/-- Distinct throw sites of validateRegexPattern, in source order. -/
inductive RegexViolation
  | patternEmpty
  | patternTooLong
  | patternSyntaxInvalid
  | patternUnsafeBacktracking
  | patternUnsafeQuantifiedAlternation
  deriving DecidableEq

/-- Check 1 of validateRegexPattern: the JavaScript condition
    (not pattern) or pattern.trim().length === 0; for a string the first
    disjunct holds exactly when it is empty. -/
def patternEmptyCheck (p : String) : Bool :=
  p == "" || jsTrimLen p == 0

/-- Tail of the structural-check regex after the closing parenthesis: a
    brace quantifier, i.e. an opening brace, one or more digits, optionally
    a comma and further digits, then a closing brace.  Implements the
    subexpression backslash-open-brace digits (comma digits) close-brace of
    the regex literal on line 44 of regex.utils.ts. -/
def braceQuantAt (cs : List Char) : Bool :=
  if (cs.takeWhile Char.isDigit).isEmpty then false
  else
    match cs.dropWhile Char.isDigit with
    | '}' :: _ => true
    | ',' :: rest =>
      (match rest.dropWhile Char.isDigit with
       | '}' :: _ => true
       | _ => false)
    | _ => false

/-- Quantifier immediately following the group: a star, a plus, or a brace
    quantifier. -/
def quantifierAt : List Char → Bool
  | '*' :: _ => true
  | '+' :: _ => true
  | '{' :: rest => braceQuantAt rest
  | _ => false

/-- Match of the structural-check regex starting exactly at the head of the
    list: an opening parenthesis, a run of characters other than a closing
    parenthesis that contains a pipe, the closing parenthesis, then a
    quantifier.  Because the bracketed runs cannot contain a closing
    parenthesis, the parenthesis matched is necessarily the first one after
    the opening parenthesis, so this function is an exact model of one
    anchor position of the JavaScript test. -/
def groupQuantAltAt : List Char → Bool
  | '(' :: rest =>
    (match rest.dropWhile (fun c => c != ')') with
     | ')' :: after =>
       (rest.takeWhile (fun c => c != ')')).contains '|' && quantifierAt after
     | _ => false)
  | _ => false

/-- Unanchored search of the structural-check regex, as the JavaScript
    test method performs: try every start position. -/
def hasQuantAltSearch : List Char → Bool
  | [] => false
  | c :: rest => groupQuantAltAt (c :: rest) || hasQuantAltSearch rest

/-- Check 5 of validateRegexPattern: the quantified-alternation structural
    check of line 44 of regex.utils.ts. -/
def hasQuantifiedAlternation (p : String) : Bool :=
  hasQuantAltSearch p.data

/-- Default value of config.regex.maxPatternLength
    (src/phase2/src/config/config.ts, line 35: the environment fallback
    string is "200"). -/
def defaultMaxRegexPatternLength : Nat := 200

/-- Embedding of validateRegexPattern (regex.utils.ts, lines 11-49).
    maxLen is config.regex.maxPatternLength; regexSyntaxOk is the oracle for
    the host RegExp constructor succeeding; safeRegexOk is the oracle for
    the external safe-regex package.  Returns the first violation in source
    order, or none when the pattern passes every check. -/
def validateRegexPattern (maxLen : Nat) (regexSyntaxOk safeRegexOk : String → Bool)
    (p : String) : Option RegexViolation :=
  if patternEmptyCheck p then some RegexViolation.patternEmpty
  else if p.length > maxLen then some RegexViolation.patternTooLong
  else if !(regexSyntaxOk p) then some RegexViolation.patternSyntaxInvalid
  else if !(safeRegexOk p) then some RegexViolation.patternUnsafeBacktracking
  else if hasQuantifiedAlternation p then some RegexViolation.patternUnsafeQuantifiedAlternation
  else none

/-- C4: validateRegexPattern applies its checks in the fixed order
    empty-pattern, too-long, syntax-invalid, general catastrophic-
    backtracking heuristic, quantified-alternation structural check, and
    reports the first violation: each outcome occurs exactly when every
    earlier check passes and that check fails, and the pattern is accepted
    exactly when all five checks pass.  This holds for every configured
    maximum length and every behaviour of the two external oracles. -/
theorem regex_validator_first_violation_wins (maxLen : Nat)
    (regexSyntaxOk safeRegexOk : String → Bool) (p : String) :
    (validateRegexPattern maxLen regexSyntaxOk safeRegexOk p
        = some RegexViolation.patternEmpty
      ↔ patternEmptyCheck p = true)
    ∧ (validateRegexPattern maxLen regexSyntaxOk safeRegexOk p
        = some RegexViolation.patternTooLong
      ↔ patternEmptyCheck p = false ∧ p.length > maxLen)
    ∧ (validateRegexPattern maxLen regexSyntaxOk safeRegexOk p
        = some RegexViolation.patternSyntaxInvalid
      ↔ patternEmptyCheck p = false ∧ p.length ≤ maxLen
        ∧ regexSyntaxOk p = false)
    ∧ (validateRegexPattern maxLen regexSyntaxOk safeRegexOk p
        = some RegexViolation.patternUnsafeBacktracking
      ↔ patternEmptyCheck p = false ∧ p.length ≤ maxLen
        ∧ regexSyntaxOk p = true ∧ safeRegexOk p = false)
    ∧ (validateRegexPattern maxLen regexSyntaxOk safeRegexOk p
        = some RegexViolation.patternUnsafeQuantifiedAlternation
      ↔ patternEmptyCheck p = false ∧ p.length ≤ maxLen
        ∧ regexSyntaxOk p = true ∧ safeRegexOk p = true
        ∧ hasQuantifiedAlternation p = true)
    ∧ (validateRegexPattern maxLen regexSyntaxOk safeRegexOk p = none
      ↔ patternEmptyCheck p = false ∧ p.length ≤ maxLen
        ∧ regexSyntaxOk p = true ∧ safeRegexOk p = true
        ∧ hasQuantifiedAlternation p = false) := by
  unfold validateRegexPattern
  split_ifs with h1 h2 h3 h4 h5 <;>
    simp_all [not_lt, Bool.not_eq_true]

/-- C5 counterexample: the configured default maximum pattern length is
    200, not 1000, and a pattern longer than the maximum is not always
    rejected as too-long: a pattern of 250 blank characters exceeds the
    default maximum yet is rejected by the earlier empty-pattern check. -/
theorem regex_too_long_default_cex :
    defaultMaxRegexPatternLength ≠ 1000
    ∧ (String.mk (List.replicate 250 ' ')).length > defaultMaxRegexPatternLength
    ∧ validateRegexPattern defaultMaxRegexPatternLength
        (fun _ => true) (fun _ => true) (String.mk (List.replicate 250 ' '))
        = some RegexViolation.patternEmpty := by
  refine ⟨by decide, by decide, by decide⟩

/-- C5 amended: the default maximum is 200, and every pattern that is not
    rejected by the earlier empty-pattern check (its trimmed content is
    non-empty) and whose length exceeds the configured maximum is rejected
    as too-long, regardless of further content or structure (for every
    behaviour of the external oracles). -/
theorem regex_too_long_rejects (maxLen : Nat)
    (regexSyntaxOk safeRegexOk : String → Bool) (p : String)
    (hne : patternEmptyCheck p = false) (hlen : p.length > maxLen) :
    validateRegexPattern maxLen regexSyntaxOk safeRegexOk p
      = some RegexViolation.patternTooLong
    ∧ defaultMaxRegexPatternLength = 200 := by
  refine ⟨?_, rfl⟩
  unfold validateRegexPattern
  rw [if_neg (by simp [hne]), if_pos hlen]

/-- C5 witness: with the default maximum of 200 and permissive oracles, a
    pattern of 250 letters is rejected as too-long. -/
theorem regex_too_long_rejects_witness :
    validateRegexPattern defaultMaxRegexPatternLength
      (fun _ => true) (fun _ => true) (String.mk (List.replicate 250 'a'))
      = some RegexViolation.patternTooLong
    ∧ defaultMaxRegexPatternLength = 200 :=
  regex_too_long_rejects defaultMaxRegexPatternLength
    (fun _ => true) (fun _ => true) (String.mk (List.replicate 250 'a'))
    (by decide) (by decide)

/-! PaginatedQueryExecutor: embedding of the enumerate pipeline ---
    pagination.utils (src/unnamed/part_016), ArtifactsService.enumerateArtifacts
    (src/phase2/src/services/artifacts.service.ts) and
    ArtifactsController.enumerateArtifacts
    (src/phase2/src/controllers/artifacts.controller.ts).  The artifacts
    table is a list of rows; the SQL engine is modelled by filtering with
    the WHERE clauses, removing duplicates (SELECT DISTINCT / UNION), and
    sorting by the ORDER BY key (name, then id); LIMIT and OFFSET become
    take and drop. -/

/-- Row of the artifacts table, restricted to the columns that the
    enumerate and search queries filter and order by (the remaining
    selected columns are payload carried along unchanged and are irrelevant
    to every claim below). -/
structure ArtifactRow where
  id : String
  name : String
  type : String
  deriving DecidableEq

/-- One ArtifactQuery of the request body: a name (the star wildcard
    matches every artifact) and an optional list of types. -/
structure ArtifactQuery where
  name : String
  types : Option (List String)

/-- WHERE clause built for one query by enumerateArtifacts
    (artifacts.service.ts, lines 80-115): no name condition for the star
    wildcard, otherwise an exact name match; a type condition only when the
    types list is present and non-empty. -/
def queryMatches (q : ArtifactQuery) (r : ArtifactRow) : Bool :=
  (q.name == "*" || r.name == q.name)
  && (match q.types with
      | none => true
      | some ts => if ts.isEmpty then true else ts.contains r.type)

/-- ORDER BY name, id of the enumerate and search SQL: lexicographic on the
    name column, ties broken by the id column. -/
def rowOrder (a b : ArtifactRow) : Prop :=
  (strLtB a.name b.name
    || (a.name == b.name && (strLtB a.id b.id || a.id == b.id))) = true

instance : DecidableRel rowOrder := fun a b => by
  unfold rowOrder
  infer_instance

/-- Full ordered result set of the UNION query: rows matching at least one
    query, with duplicates removed (SELECT DISTINCT / UNION), ordered by
    name then id. -/
def orderedResults (dataset : List ArtifactRow) (queries : List ArtifactQuery) :
    List ArtifactRow :=
  List.insertionSort rowOrder
    ((dataset.filter (fun r => queries.any (fun q => queryMatches q r))).dedup)

/-- Embedding of getSqlLimit (src/unnamed/part_016, lines 80-82). -/
def getSqlLimit (limit : Nat) : Nat := limit + 1

/-- Result shape of processPaginatedResults (src/unnamed/part_016): the
    page items, the next offset as a string or null, and the has-more
    flag. -/
structure PaginationResult (α : Type) where
  items : List α
  nextOffset : Option String
  hasMore : Bool
  deriving DecidableEq

/-- Embedding of processPaginatedResults (src/unnamed/part_016,
    lines 57-71). -/
def processPaginatedResults {α : Type} (results : List α) (offset limit : Nat) :
    PaginationResult α :=
  let hasMore := decide (results.length > limit)
  { items := results.take limit
    nextOffset := if hasMore then some (toString (offset + limit)) else none
    hasMore := hasMore }

/-- Embedding of ArtifactsService.enumerateArtifacts
    (artifacts.service.ts, lines 65-148): the UNION query ordered by name
    then id, with OFFSET pagination.offset and LIMIT pagination.limit + 1
    (the service adds one to the limit it receives). -/
def enumerateArtifacts (dataset : List ArtifactRow) (queries : List ArtifactQuery)
    (offset pagLimit : Nat) : List ArtifactRow :=
  ((orderedResults dataset queries).drop offset).take (pagLimit + 1)

/-- Embedding of the controller pipeline
    (artifacts.controller.ts, lines 85-115): the service is called with
    limit getSqlLimit(limit), and the rows that come back are paged by
    processPaginatedResults with the original limit. -/
def enumerateEndpoint (dataset : List ArtifactRow) (queries : List ArtifactQuery)
    (offset limit : Nat) : PaginationResult ArtifactRow :=
  processPaginatedResults
    (enumerateArtifacts dataset queries offset (getSqlLimit limit)) offset limit

/-! Supporting lemmas for the pagination claims. -/

theorem endpoint_items (dataset : List ArtifactRow) (queries : List ArtifactQuery)
    (offset limit : Nat) :
    (enumerateEndpoint dataset queries offset limit).items
      = ((orderedResults dataset queries).drop offset).take limit := by
  simp only [enumerateEndpoint, processPaginatedResults, enumerateArtifacts,
    getSqlLimit, List.take_take]
  congr 1
  omega

theorem endpoint_hasMore (dataset : List ArtifactRow) (queries : List ArtifactQuery)
    (offset limit : Nat) :
    (enumerateEndpoint dataset queries offset limit).hasMore
      = decide (limit < (orderedResults dataset queries).length - offset) := by
  simp only [enumerateEndpoint, processPaginatedResults, enumerateArtifacts,
    getSqlLimit, List.length_take, List.length_drop]
  rw [decide_eq_decide, gt_iff_lt, lt_min_iff]
  omega

theorem endpoint_nextOffset (dataset : List ArtifactRow) (queries : List ArtifactQuery)
    (offset limit : Nat) :
    (enumerateEndpoint dataset queries offset limit).nextOffset
      = if (enumerateEndpoint dataset queries offset limit).hasMore
        then some (toString (offset + limit)) else none := by
  simp only [enumerateEndpoint, processPaginatedResults]

/-- Concrete three-row dataset used in the pagination counterexample. -/
def cexRows : List ArtifactRow :=
  [{ id := "1", name := "alpha", type := "model" },
   { id := "2", name := "beta", type := "model" },
   { id := "3", name := "gamma", type := "model" }]

/-- Wildcard query matching every artifact. -/
def cexQueries : List ArtifactQuery := [{ name := "*", types := none }]

/-- C6 counterexample: a page fetch does not request limit + 1 rows.  The
    controller turns limit into getSqlLimit limit = limit + 1 and the
    service adds one more, so the SQL limit is limit + 2: with limit = 1 on
    a dataset of three matching rows, three rows are fetched, not the
    claimed 1 + 1 = 2. -/
theorem fetch_limit_plus_one_cex :
    (enumerateArtifacts cexRows cexQueries 0 (getSqlLimit 1)).length = 3
    ∧ (3 : Nat) ≠ 1 + 1 := by
  refine ⟨by decide, by decide⟩

/-- C6 amended: a page fetch requests limit + 2 rows under the stable
    (name, id) order --- the controller passes getSqlLimit limit = limit + 1
    to the service, which adds one more for its own has-more lookahead.  If
    more than limit rows come back, hasMore is true and exactly the first
    limit items are returned with nextOffset = offset + limit (serialized as
    a string); otherwise hasMore is false and nextOffset is null. -/
theorem enumerate_page_characterization (dataset : List ArtifactRow)
    (queries : List ArtifactQuery) (offset limit : Nat) :
    enumerateArtifacts dataset queries offset (getSqlLimit limit)
      = ((orderedResults dataset queries).drop offset).take (limit + 2)
    ∧ (enumerateEndpoint dataset queries offset limit).items
      = ((orderedResults dataset queries).drop offset).take limit
    ∧ (limit < (enumerateArtifacts dataset queries offset (getSqlLimit limit)).length →
        (enumerateEndpoint dataset queries offset limit).hasMore = true
        ∧ (enumerateEndpoint dataset queries offset limit).nextOffset
            = some (toString (offset + limit)))
    ∧ ((enumerateArtifacts dataset queries offset (getSqlLimit limit)).length ≤ limit →
        (enumerateEndpoint dataset queries offset limit).hasMore = false
        ∧ (enumerateEndpoint dataset queries offset limit).nextOffset = none) := by
  refine ⟨?_, endpoint_items dataset queries offset limit, ?_, ?_⟩
  · simp only [enumerateArtifacts, getSqlLimit]
  · intro h
    have hm : (enumerateEndpoint dataset queries offset limit).hasMore = true := by
      simp only [enumerateEndpoint, processPaginatedResults]
      exact decide_eq_true h
    refine ⟨hm, ?_⟩
    rw [endpoint_nextOffset, hm]
    simp
  · intro h
    have hm : (enumerateEndpoint dataset queries offset limit).hasMore = false := by
      simp only [enumerateEndpoint, processPaginatedResults]
      simpa [decide_eq_false_iff_not, not_lt] using h
    refine ⟨hm, ?_⟩
    rw [endpoint_nextOffset, hm]
    simp

/-- C6 witness: on the three-row dataset with limit 1 and offset 0, more
    than one row comes back, so the page has hasMore true with next offset
    "1"; at offset 2 only one row remains, so hasMore is false with no next
    offset. -/
theorem enumerate_page_characterization_witness :
    ((enumerateEndpoint cexRows cexQueries 0 1).hasMore = true
      ∧ (enumerateEndpoint cexRows cexQueries 0 1).nextOffset = some (toString (0 + 1)))
    ∧ ((enumerateEndpoint cexRows cexQueries 2 1).hasMore = false
      ∧ (enumerateEndpoint cexRows cexQueries 2 1).nextOffset = none) :=
  ⟨(enumerate_page_characterization cexRows cexQueries 0 1).2.2.1 (by decide),
   (enumerate_page_characterization cexRows cexQueries 2 1).2.2.2 (by decide)⟩

theorem flatMap_take_drop (limit : Nat) :
    ∀ (n : Nat) (l : List ArtifactRow), l.length ≤ n * limit →
      (List.range n).flatMap (fun k => (l.drop (k * limit)).take limit) = l := by
  intro n
  induction n with
  | zero =>
    intro l hl
    have hnil : l = [] := List.length_eq_zero.mp (by omega)
    simp [hnil]
  | succ n ih =>
    intro l hl
    rw [List.range_succ_eq_map, List.flatMap_cons, List.flatMap_map]
    have hshift :
        (List.range n).flatMap (fun k => (l.drop (Nat.succ k * limit)).take limit)
          = (List.range n).flatMap
              (fun k => ((l.drop limit).drop (k * limit)).take limit) := by
      congr 1
      funext k
      rw [List.drop_drop, Nat.succ_mul, Nat.add_comm]
    have hlen : (l.drop limit).length ≤ n * limit := by
      rw [List.length_drop]
      rw [Nat.succ_mul] at hl
      generalize n * limit = m at hl ⊢
      omega
    rw [hshift, ih (l.drop limit) hlen]
    simp [Nat.zero_mul, List.take_append_drop]

/-- C7: for a fixed dataset and fixed query set and a positive page limit,
    the sequence of page fetches starting at offset 0 with offsets advanced
    by limit partitions the full ordered result set: every page before the
    final one reports hasMore true, the final page (index
    (total - 1) / limit) reports hasMore false, and concatenating the page
    items yields exactly the full ordered result set, each matching row
    once, with no gaps or duplicates. -/
theorem enumerate_pages_partition (dataset : List ArtifactRow)
    (queries : List ArtifactQuery) (limit : Nat) (hl : 0 < limit) :
    (∀ k, k < ((orderedResults dataset queries).length - 1) / limit →
      (enumerateEndpoint dataset queries (k * limit) limit).hasMore = true)
    ∧ (enumerateEndpoint dataset queries
        ((((orderedResults dataset queries).length - 1) / limit) * limit)
        limit).hasMore = false
    ∧ (List.range ((((orderedResults dataset queries).length - 1) / limit) + 1)).flatMap
        (fun k => (enumerateEndpoint dataset queries (k * limit) limit).items)
      = orderedResults dataset queries := by
  refine ⟨?_, ?_, ?_⟩
  · intro k hk
    rw [endpoint_hasMore, decide_eq_true_eq]
    generalize (orderedResults dataset queries).length = L at hk ⊢
    have hmul : (k + 1) * limit ≤ ((L - 1) / limit) * limit :=
      Nat.mul_le_mul_right limit (Nat.succ_le_of_lt hk)
    have hdiv : ((L - 1) / limit) * limit ≤ L - 1 := Nat.div_mul_le_self (L - 1) limit
    have hc : (k + 1) * limit ≤ L - 1 := le_trans hmul hdiv
    rw [Nat.succ_mul] at hc
    generalize k * limit = a at hc ⊢
    omega
  · rw [endpoint_hasMore, decide_eq_false_iff_not, not_lt]
    generalize (orderedResults dataset queries).length = L
    have hdm : ((L - 1) / limit) * limit + (L - 1) % limit = L - 1 := by
      rw [Nat.mul_comm]
      exact Nat.div_add_mod (L - 1) limit
    have hmod : (L - 1) % limit < limit := Nat.mod_lt _ hl
    generalize ((L - 1) / limit) * limit = M at hdm ⊢
    generalize (L - 1) % limit = r at hdm hmod
    omega
  · have hbound : (orderedResults dataset queries).length
        ≤ ((((orderedResults dataset queries).length - 1) / limit) + 1) * limit := by
      rw [Nat.succ_mul]
      generalize (orderedResults dataset queries).length = L
      have hdm : ((L - 1) / limit) * limit + (L - 1) % limit = L - 1 := by
        rw [Nat.mul_comm]
        exact Nat.div_add_mod (L - 1) limit
      have hmod : (L - 1) % limit < limit := Nat.mod_lt _ hl
      generalize ((L - 1) / limit) * limit = M at hdm ⊢
      generalize (L - 1) % limit = r at hdm hmod
      omega
    simp only [endpoint_items]
    exact flatMap_take_drop limit _ _ hbound

/-- Concrete five-row dataset used by the pagination partition witness. -/
def partitionRows : List ArtifactRow :=
  [{ id := "1", name := "alpha", type := "model" },
   { id := "2", name := "beta", type := "dataset" },
   { id := "3", name := "gamma", type := "code" },
   { id := "4", name := "delta", type := "model" },
   { id := "5", name := "epsilon", type := "model" }]

/-- C7 witness: on a five-row dataset with limit 2 the pages at offsets 0,
    2, 4 partition the ordered result set, with the last page the one whose
    hasMore flag is false. -/
theorem enumerate_pages_partition_witness :
    (∀ k, k < ((orderedResults partitionRows cexQueries).length - 1) / 2 →
      (enumerateEndpoint partitionRows cexQueries (k * 2) 2).hasMore = true)
    ∧ (enumerateEndpoint partitionRows cexQueries
        ((((orderedResults partitionRows cexQueries).length - 1) / 2) * 2)
        2).hasMore = false
    ∧ (List.range ((((orderedResults partitionRows cexQueries).length - 1) / 2) + 1)).flatMap
        (fun k => (enumerateEndpoint partitionRows cexQueries (k * 2) 2).items)
      = orderedResults partitionRows cexQueries :=
  enumerate_pages_partition partitionRows cexQueries 2 (by decide)

/-! RateLimiter: the repository wires the external express-rate-limit
    package (src/phase2/src/middleware/rate.middleware.ts) with a window
    and a maximum and no key generator, so the package default key --- the
    client IP --- is used (the middleware doc comment says per-IP).
    Modelled from the spec: the fixed-window counter of section 4.4 (the
    counter itself lives in the external package, not under src/): per key,
    every attempt is recorded, the count resets when the window elapses,
    and a call is admitted exactly when the recorded count stays within the
    maximum. -/

/-- Per-key counter state: the end of the current window and the number of
    hits recorded in it. -/
structure RateEntry where
  resetAt : Int
  hits : Nat
  deriving DecidableEq

/-- One request as the middleware sees it: the authenticated subject, the
    route, the client IP and the arrival time. -/
structure RateRequest where
  subject : String
  route : String
  ip : String
  time : Int

/-- Key under which the counter is stored: rate.middleware.ts passes no
    keyGenerator, so the express-rate-limit default --- the client IP ---
    applies. -/
def rateLimitKey (r : RateRequest) : String := r.ip

/-- Modelled from the spec: one fixed-window counter step for a single key.
    When no window is open, or the open window has elapsed, a fresh window
    of length windowMs starts with this attempt as its first hit; otherwise
    the attempt is recorded in the open window.  The call is admitted
    exactly when the recorded hit count is within maxHits. -/
def rlStep (windowMs : Int) (maxHits : Nat) (now : Int) (st : Option RateEntry) :
    Bool × RateEntry :=
  match st with
  | none => (decide (1 ≤ maxHits), { resetAt := now + windowMs, hits := 1 })
  | some s =>
    if s.resetAt ≤ now then
      (decide (1 ≤ maxHits), { resetAt := now + windowMs, hits := 1 })
    else
      (decide (s.hits + 1 ≤ maxHits), { resetAt := s.resetAt, hits := s.hits + 1 })

/-- Keyed store of counters processing a request sequence: each request is
    counted under its key (the client IP) and the list of admission
    decisions is returned. -/
def rlProcess (windowMs : Int) (maxHits : Nat)
    (store : String → Option RateEntry) : List RateRequest → List Bool
  | [] => []
  | r :: rs =>
    let step := rlStep windowMs maxHits r.time (store (rateLimitKey r))
    step.1 :: rlProcess windowMs maxHits
      (fun k => if k == rateLimitKey r then some step.2 else store k) rs

/-- Single-key run of the same counter over a list of arrival times. -/
def rlRun (windowMs : Int) (maxHits : Nat) : Option RateEntry → List Int → List Bool
  | _, [] => []
  | st, t :: ts =>
    let step := rlStep windowMs maxHits t st
    step.1 :: rlRun windowMs maxHits (some step.2) ts

/-- C8 counterexample: the counter is not keyed by (subject, route).  With a
    limit of 1 per window, two requests from different subjects on
    different routes but the same client IP share one counter: the first is
    admitted and the second rejected, although under (subject, route)
    keying each would have had its own budget of 1. -/
theorem rate_key_not_subject_route_cex :
    rlProcess 1000 1 (fun _ => none)
      [{ subject := "alice", route := "routeA", ip := "10.0.0.1", time := 0 },
       { subject := "bob", route := "routeB", ip := "10.0.0.1", time := 1 }]
      = [true, false]
    ∧ ("alice", "routeA") ≠ ("bob", "routeB") := by
  refine ⟨by decide, by decide⟩

/-- Expected admission pattern of m in-window attempts when j hits are
    already recorded: attempt i (zero-based) is admitted exactly when
    j + i + 1 is within the maximum. -/
def expectedPattern (L : Nat) : Nat → Nat → List Bool
  | _, 0 => []
  | j, m + 1 => decide (j + 1 ≤ L) :: expectedPattern L (j + 1) m

theorem expectedPattern_all_true (L : Nat) :
    ∀ (m j : Nat), j + m ≤ L → expectedPattern L j m = List.replicate m true := by
  intro m
  induction m with
  | zero => intro j _; rfl
  | succ m ih =>
    intro j hj
    have h1 : j + 1 ≤ L := by omega
    simp only [expectedPattern, List.replicate_succ, decide_eq_true h1]
    rw [ih (j + 1) (by omega)]

theorem expectedPattern_overflow (L : Nat) :
    ∀ (m j : Nat), L ≤ j → expectedPattern L j m = List.replicate m false := by
  intro m
  induction m with
  | zero => intro j _; rfl
  | succ m ih =>
    intro j hj
    have h1 : ¬ (j + 1 ≤ L) := by omega
    simp only [expectedPattern, List.replicate_succ]
    rw [decide_eq_false h1, ih (j + 1) (by omega)]

theorem expectedPattern_append (L : Nat) :
    ∀ (m1 m2 j : Nat), expectedPattern L j (m1 + m2)
      = expectedPattern L j m1 ++ expectedPattern L (j + m1) m2 := by
  intro m1
  induction m1 with
  | zero => intro m2 j; simp [expectedPattern]
  | succ m1 ih =>
    intro m2 j
    have harr : m1 + 1 + m2 = (m1 + m2) + 1 := by omega
    rw [harr]
    simp only [expectedPattern, List.cons_append]
    rw [ih m2 (j + 1)]
    have : j + 1 + m1 = j + (m1 + 1) := by omega
    rw [this]

theorem rlRun_cons (W : Int) (L : Nat) (st : Option RateEntry) (t : Int)
    (ts : List Int) :
    rlRun W L st (t :: ts)
      = (rlStep W L t st).1 :: rlRun W L (some (rlStep W L t st).2) ts := rfl

theorem rlRun_window (W : Int) (L : Nat) (t0 : Int) (hW : 0 < W) :
    ∀ (m j : Nat) (rest : List Int),
      rlRun W L (some { resetAt := t0 + W, hits := j })
          (List.replicate m t0 ++ rest)
        = expectedPattern L j m
          ++ rlRun W L (some { resetAt := t0 + W, hits := j + m }) rest := by
  intro m
  induction m with
  | zero => intro j rest; simp [expectedPattern]
  | succ m ih =>
    intro j rest
    have hno : ¬ (t0 + W ≤ t0) := by omega
    have hstep : rlStep W L t0 (some { resetAt := t0 + W, hits := j })
        = (decide (j + 1 ≤ L), { resetAt := t0 + W, hits := j + 1 }) := by
      simp [rlStep, hno]
    rw [List.replicate_succ, List.cons_append, rlRun_cons, hstep]
    show decide (j + 1 ≤ L)
        :: rlRun W L (some { resetAt := t0 + W, hits := j + 1 })
            (List.replicate m t0 ++ rest)
      = expectedPattern L j (m + 1)
        ++ rlRun W L (some { resetAt := t0 + W, hits := j + (m + 1) }) rest
    rw [ih (j + 1) rest]
    simp only [expectedPattern, List.cons_append]
    rw [show j + 1 + m = j + (m + 1) from by omega]

/-- C8 amended: the counter is keyed per client IP (the middleware passes
    no key generator, so the express-rate-limit default applies), not per
    (subject, route); per key the fixed-window counter admits exactly L
    calls in a window of length W, rejects the (L+1)-th call of the same
    window, and admits calls again once W has elapsed. -/
theorem rate_limiter_fixed_window (L : Nat) (W t0 : Int) (hW : 0 < W) (hL : 0 < L) :
    rlRun W L none (List.replicate (L + 1) t0 ++ [t0 + W])
      = List.replicate L true ++ [false, true]
    ∧ ∀ r : RateRequest, rateLimitKey r = r.ip := by
  refine ⟨?_, fun r => rfl⟩
  obtain ⟨n, rfl⟩ : ∃ n, L = n + 1 := ⟨L - 1, by omega⟩
  have hone : (1 : Nat) ≤ n + 1 := by omega
  have hfirst : rlStep W (n + 1) t0 none
      = (decide (1 ≤ n + 1), { resetAt := t0 + W, hits := 1 }) := rfl
  rw [List.replicate_succ, List.cons_append, rlRun_cons, hfirst,
    decide_eq_true hone]
  show true :: rlRun W (n + 1) (some { resetAt := t0 + W, hits := 1 })
      (List.replicate (n + 1) t0 ++ [t0 + W])
    = List.replicate (n + 1) true ++ [false, true]
  rw [rlRun_window W (n + 1) t0 hW (n + 1) 1 [t0 + W]]
  have hpat : expectedPattern (n + 1) 1 (n + 1)
      = List.replicate n true ++ [false] := by
    rw [expectedPattern_append (n + 1) n 1 1,
      expectedPattern_all_true (n + 1) n 1 (by omega),
      expectedPattern_overflow (n + 1) 1 (1 + n) (by omega)]
    rfl
  have hlast : rlRun W (n + 1) (some { resetAt := t0 + W, hits := 1 + (n + 1) })
      [t0 + W] = [true] := by
    rw [rlRun_cons]
    have hreset : rlStep W (n + 1) (t0 + W)
        (some { resetAt := t0 + W, hits := 1 + (n + 1) })
        = (decide (1 ≤ n + 1), { resetAt := t0 + W + W, hits := 1 }) := by
      simp [rlStep]
    rw [hreset, decide_eq_true hone]
    rfl
  rw [hpat, hlast]
  simp [List.replicate_succ, List.append_assoc]

/-- C8 witness: with a maximum of 2 per window of length 10 starting at
    time 0, the admission sequence of three in-window calls and one call at
    the window boundary is admit, admit, reject, admit; and the counter key
    of any request is its client IP. -/
theorem rate_limiter_fixed_window_witness :
    rlRun 10 2 none (List.replicate (2 + 1) 0 ++ [0 + 10])
      = List.replicate 2 true ++ [false, true]
    ∧ ∀ r : RateRequest, rateLimitKey r = r.ip :=
  rate_limiter_fixed_window 2 10 0 (by decide) (by decide)

/-! AuditLogger.  Modelled from the spec: no audit-logger implementation
    exists under src/ (the repository documentation only references audit
    logging), so the record and query operations are modelled from
    section 4.6 of the spec: record appends one immutable row per attempt,
    and query filters by action and time range and returns events
    newest-first.  The optional subjectId filter and result limit of the
    spec query interface are not used by any claim and are omitted. -/

/-- Closed enum of audited actions. -/
inductive AuditAction
  | registryReset
  | artifactCreate
  | artifactUpdate
  | artifactDelete
  deriving DecidableEq

/-- One immutable audit row. -/
structure AuditEvent where
  timestamp : Int
  action : AuditAction
  subjectId : String
  resourceId : String
  resourceType : String
  success : Bool
  deriving DecidableEq

/-- One attempted create, update, delete or reset, with its outcome. -/
structure AuditAttempt where
  time : Int
  action : AuditAction
  subjectId : String
  resourceId : String
  resourceType : String
  success : Bool

/-- Audit row written for an attempt. -/
def mkAuditEvent (a : AuditAttempt) : AuditEvent :=
  { timestamp := a.time, action := a.action, subjectId := a.subjectId,
    resourceId := a.resourceId, resourceType := a.resourceType,
    success := a.success }

/-- Modelled from the spec: record appends exactly one immutable row for
    the attempt, whether it succeeded or failed. -/
def recordAudit (log : List AuditEvent) (a : AuditAttempt) : List AuditEvent :=
  mkAuditEvent a :: log

/-- Newest-first order on audit events. -/
def auditNewestFirst (a b : AuditEvent) : Prop := b.timestamp ≤ a.timestamp

instance : DecidableRel auditNewestFirst := fun a b => by
  unfold auditNewestFirst
  infer_instance

instance : IsTotal AuditEvent auditNewestFirst :=
  ⟨fun a b => le_total b.timestamp a.timestamp⟩

instance : IsTrans AuditEvent auditNewestFirst :=
  ⟨fun _ _ _ hab hbc => le_trans hbc hab⟩

/-- Modelled from the spec: query by action and closed time range, events
    returned newest-first. -/
def auditQuery (log : List AuditEvent) (action : AuditAction)
    (startT endT : Int) : List AuditEvent :=
  List.insertionSort auditNewestFirst
    (log.filter (fun e =>
      decide (e.action = action) && decide (startT ≤ e.timestamp)
        && decide (e.timestamp ≤ endT)))

/-- C9: every recorded attempt produces exactly one AuditEvent whose
    action, subjectId and success fields match the attempt (the new log is
    the old one with exactly that one row prepended), and querying by
    action and time range returns exactly the events of the log matching
    that action and lying in the range, in newest-first (descending
    timestamp) order. -/
theorem audit_record_and_query (log : List AuditEvent) (a : AuditAttempt)
    (action : AuditAction) (startT endT : Int) :
    recordAudit log a = mkAuditEvent a :: log
    ∧ (mkAuditEvent a).action = a.action
    ∧ (mkAuditEvent a).subjectId = a.subjectId
    ∧ (mkAuditEvent a).success = a.success
    ∧ (∀ e : AuditEvent, e ∈ auditQuery log action startT endT ↔
        (e ∈ log ∧ e.action = action ∧ startT ≤ e.timestamp ∧ e.timestamp ≤ endT))
    ∧ List.Sorted auditNewestFirst (auditQuery log action startT endT) := by
  refine ⟨rfl, rfl, rfl, rfl, ?_, ?_⟩
  · intro e
    rw [auditQuery,
      (List.perm_insertionSort auditNewestFirst _).mem_iff, List.mem_filter]
    simp [and_assoc]
  · exact List.sorted_insertionSort auditNewestFirst _

/-! Regex search path: embedding of ArtifactsService.searchByRegex
    (src/phase2/src/services/artifacts.service.ts, lines 157-200).  The SQL
    query selects distinct rows whose name or readme matches the pattern
    under the PostgreSQL case-insensitive regex operator (an external
    engine, modelled as a per-row Bool oracle), orders them by name then
    id, and caps them with LIMIT config.regex.maxResults; a row count of
    zero becomes a NotFoundError. -/

/-- Failure mode of searchByRegex. -/
inductive SearchFailure
  | notFound
  deriving DecidableEq

/-- Embedding of ArtifactsService.searchByRegex for an already-validated
    pattern: regexMatches r is the oracle for the external regex engine
    accepting row r (on its name or readme column), maxResults is
    config.regex.maxResults. -/
def searchByRegex (table : List ArtifactRow) (regexMatches : ArtifactRow → Bool)
    (maxResults : Nat) : Except SearchFailure (List ArtifactRow) :=
  if ((List.insertionSort rowOrder ((table.filter regexMatches).dedup)).take
      maxResults).length = 0
  then Except.error SearchFailure.notFound
  else Except.ok
    ((List.insertionSort rowOrder ((table.filter regexMatches).dedup)).take
      maxResults)

/-- C10: for every table, every behaviour of the external regex engine and
    every configured maximum, searchByRegex either fails with the not-found
    error or returns a non-empty list of at most maxResults rows; it never
    returns an empty list. -/
theorem regex_search_never_empty (table : List ArtifactRow)
    (regexMatches : ArtifactRow → Bool) (maxResults : Nat) :
    searchByRegex table regexMatches maxResults = Except.error SearchFailure.notFound
    ∨ ∃ l : List ArtifactRow,
        searchByRegex table regexMatches maxResults = Except.ok l
        ∧ l ≠ [] ∧ l.length ≤ maxResults := by
  by_cases h :
      ((List.insertionSort rowOrder ((table.filter regexMatches).dedup)).take
        maxResults).length = 0
  · left
    rw [searchByRegex, if_pos h]
  · right
    refine ⟨_, by rw [searchByRegex, if_neg h], ?_, ?_⟩
    · intro hnil
      exact h (by rw [hnil]; rfl)
    · exact List.length_take_le maxResults _

/-- C4 witness: on the empty pattern with permissive oracles the validator
    reports the empty-pattern violation, by the first-violation
    characterization. -/
theorem regex_validator_first_violation_wins_witness :
    validateRegexPattern 10 (fun _ => true) (fun _ => true) ""
      = some RegexViolation.patternEmpty :=
  (regex_validator_first_violation_wins 10 (fun _ => true) (fun _ => true) "").1.mpr
    (by decide)
